import Mathlib

set_option linter.unusedVariables false

/-!
Verification of the Counterfactual Account Operation Engine
(scroll-demo account-abstraction clients and contracts).

The development shallowly embeds the byte-exact formulas of the TypeScript
clients (`utils.ts`, the CLI mains, the social-login `main.ts`) and of the
Solidity validators (`DemoAccount.sol`, `DemoPaymaster.sol`,
`AccountFactory.sol`).  Byte strings are `List Nat` (each entry a byte value);
machine integers are `Nat` with explicit `% 2 ^ w` where the code truncates.
The 256-bit hash (keccak256) is an explicit function parameter
`H : List Nat → List Nat`: every digest formula in the repository is a
composition of `H` with packed-byte concatenation, so all claims about field
order, widths and nesting are provable for an arbitrary `H`.
-/

/-- Type of the 256-bit hash function (keccak256), kept abstract. -/
abbrev Hash := List Nat → List Nat

/-- Big-endian fixed-width byte encoding: `bytesBE k n` is the `k`-byte
big-endian encoding of `n % 256 ^ k`.  This is Solidity's
`abi.encodePacked` for a `k`-byte integer type and viem's `encodePacked`
for `uintN`/`address`/`bytesN` arguments. -/
def bytesBE : Nat → Nat → List Nat
  | 0, _ => []
  | k + 1, n => bytesBE k (n / 256) ++ [n % 256]

/-- Big-endian interpretation of a byte string as an unsigned integer
(Solidity's `uint256(bytes32 value)`). -/
def bytesToNat (l : List Nat) : Nat := l.foldl (fun a b => 256 * a + b) 0

/-- ASCII bytes of a string literal (Solidity packs string literals as their
raw bytes). -/
def asciiBytes (s : String) : List Nat := s.data.map Char.toNat

theorem bytesBE_length (k n : Nat) : (bytesBE k n).length = k := by
  induction k generalizing n with
  | zero => rfl
  | succ k ih => simp [bytesBE, ih]

theorem bytesToNat_append_single (l : List Nat) (b : Nat) :
    bytesToNat (l ++ [b]) = 256 * bytesToNat l + b := by
  simp [bytesToNat, List.foldl_append]

theorem bytesToNat_bytesBE (k n : Nat) : bytesToNat (bytesBE k n) = n % 256 ^ k := by
  induction k generalizing n with
  | zero => simp [bytesBE, bytesToNat, Nat.mod_one]
  | succ k ih =>
      rw [bytesBE, bytesToNat_append_single, ih, pow_succ']
      rw [Nat.mod_mul]
      omega

theorem bytesToNat_bytesBE_of_lt {k n : Nat} (h : n < 256 ^ k) :
    bytesToNat (bytesBE k n) = n := by
  rw [bytesToNat_bytesBE, Nat.mod_eq_of_lt h]

/-! ## Principal digest (claim C1)

Sources: `computeUserOpHash` in `02-paymaster/client/src/utils.ts`,
the inline `rawHash` computation in the CLI mains, and
`DemoAccount.validateUserOp` in `01-simple/contracts/src/DemoAccount.sol`. -/

/-- The packed pre-image of the principal digest:
`sender (20 bytes) || nonce (32 bytes) || H(callData)` — the argument of the
outer keccak256 in both the client and the validator. -/
def principalPreimage (H : Hash) (sender nonce : Nat) (callData : List Nat) : List Nat :=
  bytesBE 20 sender ++ bytesBE 32 nonce ++ H callData

/-- The function `computeUserOpHash` from `utils.ts`:
`keccak256(encodePacked(["address","uint256","bytes32"],
[sender, nonce, keccak256(callData)]))`.  The same expression appears inline
in both CLI mains. -/
def computeUserOpHash (H : Hash) (sender nonce : Nat) (callData : List Nat) : List Nat :=
  H (bytesBE 20 sender ++ bytesBE 32 nonce ++ H callData)

/-- The ERC-4337 operation record, fields as in the Solidity
`UserOperation` struct (integers as `Nat`, byte strings as `List Nat`). -/
structure UserOperation where
  sender : Nat
  nonce : Nat
  initCode : List Nat
  callData : List Nat
  callGasLimit : Nat
  verificationGasLimit : Nat
  preVerificationGas : Nat
  maxFeePerGas : Nat
  maxPriorityFeePerGas : Nat
  paymasterAndData : List Nat
  signature : List Nat
deriving Repr, DecidableEq

/-- The hash recomputed on-chain by `DemoAccount.validateUserOp`:
`keccak256(abi.encodePacked(userOp.sender, userOp.nonce,
keccak256(userOp.callData)))`. -/
def demoAccountUserOpHash (H : Hash) (op : UserOperation) : List Nat :=
  H (bytesBE 20 op.sender ++ bytesBE 32 op.nonce ++ H op.callData)

/-- The principal digest as the specification words it: the hash of
(sender address || nonce || hash(call payload)), sender 20 bytes,
nonce 32 bytes. -/
def principalDigestSpec (H : Hash) (sender nonce : Nat) (callData : List Nat) : List Nat :=
  H (bytesBE 20 sender ++ bytesBE 32 nonce ++ H callData)

/-! ## CREATE2 address derivation (claim C2)

Source: `AccountFactory.getAddress` / `AccountFactory.createAccount`. -/

/-- The function `AccountFactory.getAddress(uuidString, backendSalt, entryPoint)`:

    salt     = keccak256(abi.encodePacked(uuidString, backendSalt))
    bytecode = DemoAccount.creationCode ++ abi.encode(entryPoint)
    hash     = keccak256(abi.encodePacked(bytes1(0xff), address(this), salt,
                                          keccak256(bytecode)))
    return address(uint160(uint256(hash)))

`factorySelf` is `address(this)`; `creationCode` is the DemoAccount creation
bytecode; `abi.encode(entryPoint)` is the 32-byte left-padded address.
The `uint160` cast is `% 2 ^ 160`. -/
def factoryGetAddress (H : Hash) (factorySelf : Nat) (creationCode : List Nat)
    (uuidString backendSalt : List Nat) (entryPoint : Nat) : Nat :=
  let salt := H (uuidString ++ backendSalt)
  let bytecode := creationCode ++ bytesBE 32 entryPoint
  bytesToNat (H ([0xff] ++ bytesBE 20 factorySelf ++ salt ++ H bytecode)) % 2 ^ 160

/-- The derived address as the specification words it: the low-order 160 bits
of keccak256(0xff || factory address || salt || keccak256(creation code ||
constructor arguments)). -/
def create2AddressSpec (H : Hash) (factory : Nat) (salt creationCode ctorArgs : List Nat) : Nat :=
  bytesToNat (H ([0xff] ++ bytesBE 20 factory ++ salt ++ H (creationCode ++ ctorArgs))) % 2 ^ 160

/-- The function `AccountFactory.createAccount` computes the predicted address with the
same formula as `getAddress`; if code already exists at it, returns it
without deploying, otherwise deploys (CREATE2 places the contract at the
predicted address) and returns it.  The model returns
(address, whether a deployment happened); `codeExists` is the
`predicted.code.length > 0` check.  `initialOwner` is passed to `init` after
deployment and does not enter the address. -/
def factoryCreateAccount (H : Hash) (factorySelf : Nat) (creationCode : List Nat)
    (uuidString backendSalt : List Nat) (entryPoint initialOwner : Nat)
    (codeExists : Bool) : Nat × Bool :=
  let predicted := factoryGetAddress H factorySelf creationCode uuidString backendSalt entryPoint
  if codeExists then (predicted, false) else (predicted, true)

/-! ## Sponsor (paymaster) digest (claim C3)

Sources: `buildPaymasterAndData` in `utils.ts`, `signPaymaster` in the
social-login `main.ts`, and `DemoPaymaster.validatePaymasterUserOp`. -/

/-- The packed pre-image of the sponsor digest:
`sender (20 bytes) || callData (raw) || nonce (32 bytes)`.  Note the raw
call payload (no nested hash) and the nonce placed last. -/
def sponsorPreimage (sender : Nat) (callData : List Nat) (nonce : Nat) : List Nat :=
  bytesBE 20 sender ++ callData ++ bytesBE 32 nonce

/-- The paymaster hash from `buildPaymasterAndData` / `signPaymaster`:
`keccak256(encodePacked(["address","bytes","uint256"],
[sender, callData, nonce]))`. -/
def buildPaymasterHash (H : Hash) (sender : Nat) (callData : List Nat) (nonce : Nat) : List Nat :=
  H (bytesBE 20 sender ++ callData ++ bytesBE 32 nonce)

/-- The hash recomputed on-chain by `DemoPaymaster.validatePaymasterUserOp`:
`keccak256(abi.encodePacked(userOp.sender, userOp.callData, userOp.nonce))`. -/
def demoPaymasterHash (H : Hash) (op : UserOperation) : List Nat :=
  H (bytesBE 20 op.sender ++ op.callData ++ bytesBE 32 op.nonce)

/-! ## EIP-191 personal-message wrapping (claim C4)

Sources: `DemoAccount.recover`, `DemoPaymaster._recover`, the
social-login `DemoAccount.validateUserOp`, and the client-side
`signMessage({ raw })` calls. -/

/-- The ASCII bytes of `"\x19Ethereum Signed Message:\n32"` — the EIP-191
personal-message tag with the literal decimal length 32, as packed by
`abi.encodePacked` in both validators. -/
def ethSignedHeader : List Nat := asciiBytes "\x19Ethereum Signed Message:\n32"

/-- The wrapped hash recomputed by `DemoAccount.recover` before `ecrecover`:
`keccak256(abi.encodePacked("\x19Ethereum Signed Message:\n32", digest))`. -/
def demoAccountEthHash (H : Hash) (digest : List Nat) : List Nat :=
  H (ethSignedHeader ++ digest)

/-- The wrapped hash recomputed by `DemoPaymaster._recover` before
`ecrecover` — same formula, independent implementation. -/
def demoPaymasterEthHash (H : Hash) (digest : List Nat) : List Nat :=
  H (ethSignedHeader ++ digest)

/-- Modelled from the spec: the Signer side of the wrapping.  The clients
sign with viem's `signMessage({ message: { raw: digest } })`, whose body is
not part of this repository; per the specification (§4.5) and the
repository's own comment on `validateUserOp`, it hashes
`"\x19Ethereum Signed Message:\n32" ++ digest` with keccak256 and signs that
wrapped hash, never the raw digest. -/
def signMessageRawDigest (H : Hash) (digest : List Nat) : List Nat :=
  H (ethSignedHeader ++ digest)

/-! ## Init payload (claim C5)

Sources: `smartAccountExists` and the `initCode` branch of `sendUserOp` in
the social-login `main.ts`. -/

/-- The function `smartAccountExists` from `main.ts` takes the result of
`publicClient.getCode({ address })` (a hex string, or undefined/null when the
RPC returns no code).  JS truthiness: `undefined`, `null` and `""` are all
falsy, so they map to `none`/the empty string here.

    if (!code) return false
    const normalized = code.toLowerCase()
    if (normalized === "0x" || normalized === "0x0") return false
    return normalized.length > 2
-/
def smartAccountExists (code : Option String) : Bool :=
  match code with
  | none => false
  | some c =>
      if c = "" then false
      else
        let normalized := c.toLower
        if normalized = "0x" ∨ normalized = "0x0" then false
        else decide (normalized.length > 2)

/-- Right-pad a byte string with zero bytes to a multiple of 32, as ABI
encoding does for the dynamic `string` tail. -/
def padRight32 (l : List Nat) : List Nat :=
  l ++ List.replicate ((32 - l.length % 32) % 32) 0

/-- The 4-byte function selector of
`createAccount(string,bytes32,address,address)`. -/
def createAccountSelector (H : Hash) : List Nat :=
  (H (asciiBytes "createAccount(string,bytes32,address,address)")).take 4

/-- The encoding `encodeFunctionData` for
`factory.createAccount(uuidString, backendSalt, entryPoint, initialOwner)`
(viem, standard ABI encoding): selector, then the four 32-byte head slots —
the offset of the dynamic string (4·32 = 128 = 0x80), the `bytes32` salt,
the two left-padded addresses — then the string tail (length word followed
by the raw bytes padded to a multiple of 32). -/
def encodeCreateAccountCall (H : Hash) (uuidString backendSalt : List Nat)
    (entryPoint initialOwner : Nat) : List Nat :=
  createAccountSelector H
    ++ bytesBE 32 128
    ++ backendSalt
    ++ bytesBE 32 entryPoint
    ++ bytesBE 32 initialOwner
    ++ bytesBE 32 uuidString.length
    ++ padRight32 uuidString

/-- Reader for `encodeCreateAccountCall`'s layout: recovers
(uuidString, backendSalt, entryPoint, initialOwner) from the byte offsets
fixed by the ABI encoding. -/
def decodeCreateAccountCall (call : List Nat) : List Nat × List Nat × Nat × Nat :=
  let afterSel := call.drop 4
  let afterOff := afterSel.drop 32
  let salt := afterOff.take 32
  let afterSalt := afterOff.drop 32
  let ep := bytesToNat (afterSalt.take 32)
  let afterEp := afterSalt.drop 32
  let owner := bytesToNat (afterEp.take 32)
  let afterOwner := afterEp.drop 32
  let len := bytesToNat (afterOwner.take 32)
  let uuid := (afterOwner.drop 32).take len
  (uuid, salt, ep, owner)

/-- The `initCode` branch of `sendUserOp` (step 5 in `main.ts`):

    if (exists) initCode = "0x"
    else initCode = factoryAddress + encodeFunctionData(createAccount, args)

`codeExists` is the result of `smartAccountExists` for the derived sender. -/
def buildInitCode (H : Hash) (codeExists : Bool) (factory : Nat)
    (uuidString backendSalt : List Nat) (entryPoint initialOwner : Nat) : List Nat :=
  if codeExists then []
  else bytesBE 20 factory ++ encodeCreateAccountCall H uuidString backendSalt entryPoint initialOwner

/-! ## Sponsor payload layout (claim C6)

Sources: `buildPaymasterAndData` in `utils.ts`, step 7 of `sendUserOp` in
`main.ts`, and the length check in `DemoPaymaster.validatePaymasterUserOp`. -/

/-- The tail of `buildPaymasterAndData`: `(paymasterAddress + signature.slice(2))` —
the paymaster's 20-byte address immediately followed by the signature
bytes. -/
def buildPaymasterAndData (paymasterAddress : Nat) (sig : List Nat) : List Nat :=
  bytesBE 20 paymasterAddress ++ sig

/-- Step 7 of `sendUserOp`: `paymasterAndData` stays `"0x"` when
`signPaymaster` returned null (no sponsor key configured), and becomes
`paymasterAddress + pmSig.slice(2)` otherwise. -/
def paymasterAndDataOf (pmSig : Option (List Nat)) (paymasterAddress : Nat) : List Nat :=
  match pmSig with
  | none => []
  | some sig => buildPaymasterAndData paymasterAddress sig

/-- The validator's length gate:
`require(pnd.length == 20 + 65, "invalid paymasterAndData length")`. -/
def paymasterAndDataLengthOk (pnd : List Nat) : Bool :=
  pnd.length == 20 + 65

/-- The validator's signature slice: `pnd[20:85]`. -/
def paymasterSignatureSlice (pnd : List Nat) : List Nat :=
  (pnd.drop 20).take 65

/-! ## Bundler submission response check (claim C7)

Sources: the `eth_sendUserOperation` response checks in the two CLI mains:

    if (!sendRes.result || typeof sendRes.result !== "string") {
      throw new Error("Bundler did not return a valid operation hash")
    }
-/

/-- A JSON value as the response parser sees it, with just enough structure
for JS truthiness and `typeof` checks: strings, numbers, booleans, null, and
opaque objects (always truthy). -/
inductive JsValue where
  | jstr : String → JsValue
  | jnum : Int → JsValue
  | jbool : Bool → JsValue
  | jnull : JsValue
  | jobj : JsValue
deriving Repr, DecidableEq

/-- JS truthiness of a value. -/
def JsValue.isTruthy : JsValue → Bool
  | .jstr s => decide (s ≠ "")
  | .jnum n => decide (n ≠ 0)
  | .jbool b => b
  | .jnull => false
  | .jobj => true

/-- The JS check `typeof v === "string"`. -/
def JsValue.isString : JsValue → Bool
  | .jstr _ => true
  | _ => false

/-- The bundler's `eth_sendUserOperation` response: an optional `result`
and an optional `error` member (`BundlerSendUoResponse` in `types.ts`);
a missing member is JS `undefined`, hence `none`. -/
structure BundlerSendUoResponse where
  result : Option JsValue
  error : Option JsValue
deriving Repr, DecidableEq

/-- The submitters' response check: success exactly when
`sendRes.result` is truthy and of type string; everything else throws
`"Bundler did not return a valid operation hash"`. -/
def checkBundlerResponse (res : BundlerSendUoResponse) : Except String JsValue :=
  match res.result with
  | some v =>
      if v.isTruthy && v.isString then Except.ok v
      else Except.error "Bundler did not return a valid operation hash"
  | none => Except.error "Bundler did not return a valid operation hash"

/-! ## Receipt poller (claims C8 and C9)

Source: `waitForReceipt` in `utils.ts`:

    while (true) {
      const res = await fetch(...eth_getUserOperationReceipt...)
      if (res.result) return res.result
      await new Promise((resolve) => setTimeout(resolve, 1000))
    }

The loop is driven by the sequence of relay responses; the model consumes a
finite observation of that sequence, one `Option receipt` per query
(`none` for an absent/null `result`).  It returns
(receipt, number of queries made, total milliseconds slept) on the first
present receipt, and `none` while the observed responses are all absent —
the loop is still pending and will query again.  `waitForReceipt` in the
source takes only the bundler URL and the operation hash: there is no
cancellation input and no internal bound. -/
def waitForReceipt {α : Type} : List (Option α) → Option (α × Nat × Nat)
  | [] => none
  | response :: rest =>
      match response with
      | some receipt => some (receipt, 1, 0)
      | none =>
          match waitForReceipt rest with
          | some (receipt, queries, slept) => some (receipt, queries + 1, slept + 1000)
          | none => none

/-! ## Integer/hex serialization (claim C10)

Sources: `toHex` and `buildUserOperation` in `utils.ts`, and
`toEntryPointUserOp` in the social-login `main.ts`. -/

/-- Lowercase hex digit character, as produced by JS
`BigInt.prototype.toString(16)`. -/
def hexDigitChar (d : Nat) : Char :=
  if d < 10 then Char.ofNat (48 + d) else Char.ofNat (87 + d)

/-- The hex digits of `n`, most significant first, as emitted by
`BigInt(n).toString(16)`: minimal length, and `"0"` for zero. -/
def natToHexDigits (n : Nat) : List Nat :=
  if n = 0 then [0] else (Nat.digits 16 n).reverse

/-- The function `toHex` from `utils.ts`: the string "0x" followed by
BigInt(v).toString(16). -/
def toHex (n : Nat) : String :=
  "0x" ++ String.mk ((natToHexDigits n).map hexDigitChar)

/-- Numeric value of a hex digit character (JS `BigInt(string)` accepts both
cases). -/
def hexCharVal (c : Char) : Option Nat :=
  if 48 ≤ c.toNat ∧ c.toNat ≤ 57 then some (c.toNat - 48)
  else if 97 ≤ c.toNat ∧ c.toNat ≤ 102 then some (c.toNat - 87)
  else if 65 ≤ c.toNat ∧ c.toNat ≤ 70 then some (c.toNat - 55)
  else none

/-- Big-endian accumulation of hex digit characters; fails on the first
non-digit. -/
def parseHexDigitsAux : List Char → Nat → Option Nat
  | [], acc => some acc
  | c :: cs, acc =>
      match hexCharVal c with
      | some d => parseHexDigitsAux cs (16 * acc + d)
      | none => none

/-- JS `BigInt(s)` restricted to the `0x`-prefixed hex grammar the clients
use: requires the `0x` prefix and at least one hex digit (`BigInt("0x")`
throws). -/
def parseBigIntHex (s : String) : Option Nat :=
  match s.data with
  | '0' :: 'x' :: rest => if rest.isEmpty then none else parseHexDigitsAux rest 0
  | _ => none

/-- The wire-format operation record: every numeric field serialized as a
`0x`-prefixed hex string (`SimpleUserOperation` in the clients). -/
structure SimpleUserOperationHex where
  sender : String
  nonce : String
  initCode : String
  callData : String
  callGasLimit : String
  verificationGasLimit : String
  preVerificationGas : String
  maxFeePerGas : String
  maxPriorityFeePerGas : String
  paymasterAndData : String
  signature : String
deriving Repr, DecidableEq

/-- The numeric operation record (`EntryPointUserOperation` in `main.ts`,
numeric fields as bigint). -/
structure EntryPointUserOperationNum where
  sender : String
  nonce : Nat
  initCode : String
  callData : String
  callGasLimit : Nat
  verificationGasLimit : Nat
  preVerificationGas : Nat
  maxFeePerGas : Nat
  maxPriorityFeePerGas : Nat
  paymasterAndData : String
  signature : String
deriving Repr, DecidableEq

/-- The function `toEntryPointUserOp` from `main.ts` converts each numeric hex field
with `BigInt(...)`; `BigInt` throwing on a malformed field is the `none`
case. -/
def toEntryPointUserOp (op : SimpleUserOperationHex) : Option EntryPointUserOperationNum := do
  let nonce ← parseBigIntHex op.nonce
  let callGasLimit ← parseBigIntHex op.callGasLimit
  let verificationGasLimit ← parseBigIntHex op.verificationGasLimit
  let preVerificationGas ← parseBigIntHex op.preVerificationGas
  let maxFeePerGas ← parseBigIntHex op.maxFeePerGas
  let maxPriorityFeePerGas ← parseBigIntHex op.maxPriorityFeePerGas
  pure { sender := op.sender, nonce := nonce, initCode := op.initCode,
         callData := op.callData, callGasLimit := callGasLimit,
         verificationGasLimit := verificationGasLimit,
         preVerificationGas := preVerificationGas,
         maxFeePerGas := maxFeePerGas,
         maxPriorityFeePerGas := maxPriorityFeePerGas,
         paymasterAndData := op.paymasterAndData, signature := op.signature }

/-- The function `buildUserOperation` from `utils.ts` serializes the numeric inputs with
`toHex`, fixed gas defaults, empty `initCode`/`paymasterAndData`/
`signature`. -/
def buildUserOperation (sender : String) (nonce : Nat) (callData : String)
    (maxFeePerGas maxPriorityFeePerGas : Nat) : SimpleUserOperationHex :=
  { sender := sender, nonce := toHex nonce, initCode := "0x",
    callData := callData, callGasLimit := toHex 250000,
    verificationGasLimit := toHex 250000, preVerificationGas := toHex 50000,
    maxFeePerGas := toHex maxFeePerGas,
    maxPriorityFeePerGas := toHex maxPriorityFeePerGas,
    paymasterAndData := "0x", signature := "0x" }

/-! ## Shared helpers for the theorems and their witnesses -/

/-- A trivial concrete instantiation of the abstract hash parameter (constant
32-byte output), used only to evaluate theorems on concrete inputs. -/
def constHash32 : Hash := fun _ => List.replicate 32 0

theorem constHash32_length (x : List Nat) : (constHash32 x).length = 32 := by
  simp [constHash32]

theorem bytesBE20_append_ne_nil (a : Nat) (l : List Nat) :
    bytesBE 20 a ++ l ≠ [] := by
  intro h
  have := congrArg List.length h
  simp [bytesBE_length] at this

/-! ## Claim theorems -/

/-- C1: the principal digest computed before signing is the 256-bit hash of
the packed concatenation (sender address, 20 bytes) || (nonce, 32 bytes) ||
(hash of the call payload, 32 bytes), in that field order — and it is the
same value that `DemoAccount.validateUserOp` recomputes on-chain from the
operation's own fields. -/
theorem principal_digest_consistent (H : Hash) (sender nonce : Nat) (callData : List Nat)
    (op : UserOperation) (hs : op.sender = sender) (hn : op.nonce = nonce)
    (hc : op.callData = callData) (hlen : (H callData).length = 32) :
    computeUserOpHash H sender nonce callData = principalDigestSpec H sender nonce callData
    ∧ computeUserOpHash H sender nonce callData = demoAccountUserOpHash H op
    ∧ computeUserOpHash H sender nonce callData = H (principalPreimage H sender nonce callData)
    ∧ (principalPreimage H sender nonce callData).length = 84 := by
  subst hs hn hc
  refine ⟨rfl, rfl, rfl, ?_⟩
  simp [principalPreimage, bytesBE_length, hlen]

theorem principal_digest_consistent_witness :
    (⟨1, 2, [], [3], 0, 0, 0, 0, 0, [], []⟩ : UserOperation).sender = 1
    ∧ (⟨1, 2, [], [3], 0, 0, 0, 0, 0, [], []⟩ : UserOperation).nonce = 2
    ∧ (⟨1, 2, [], [3], 0, 0, 0, 0, 0, [], []⟩ : UserOperation).callData = [3]
    ∧ (constHash32 [3]).length = 32
    ∧ (computeUserOpHash constHash32 1 2 [3] = principalDigestSpec constHash32 1 2 [3]
       ∧ computeUserOpHash constHash32 1 2 [3]
           = demoAccountUserOpHash constHash32 ⟨1, 2, [], [3], 0, 0, 0, 0, 0, [], []⟩
       ∧ computeUserOpHash constHash32 1 2 [3] = constHash32 (principalPreimage constHash32 1 2 [3])
       ∧ (principalPreimage constHash32 1 2 [3]).length = 84) :=
  ⟨rfl, rfl, rfl, constHash32_length [3],
   principal_digest_consistent constHash32 1 2 [3] ⟨1, 2, [], [3], 0, 0, 0, 0, 0, [], []⟩
     rfl rfl rfl (constHash32_length [3])⟩

/-- C2: the derived account address equals the low-order 160 bits of
keccak256(0xff || factory address || salt || keccak256(creation code ||
constructor arguments)) with salt = keccak256(uuidString || backendSalt),
it is an address (< 2^160), and `createAccount` yields the same address
whether or not code is already deployed at it — the derivation reads no
on-chain state. -/
theorem create2_address_derivation (H : Hash) (factorySelf entryPoint initialOwner : Nat)
    (creationCode uuidString backendSalt : List Nat) (b1 b2 : Bool) :
    factoryGetAddress H factorySelf creationCode uuidString backendSalt entryPoint
      = create2AddressSpec H factorySelf (H (uuidString ++ backendSalt)) creationCode
          (bytesBE 32 entryPoint)
    ∧ factoryGetAddress H factorySelf creationCode uuidString backendSalt entryPoint < 2 ^ 160
    ∧ (factoryCreateAccount H factorySelf creationCode uuidString backendSalt entryPoint
         initialOwner b1).1
        = (factoryCreateAccount H factorySelf creationCode uuidString backendSalt entryPoint
             initialOwner b2).1
    ∧ (factoryCreateAccount H factorySelf creationCode uuidString backendSalt entryPoint
         initialOwner b1).1
        = factoryGetAddress H factorySelf creationCode uuidString backendSalt entryPoint := by
  refine ⟨rfl, ?_, ?_, ?_⟩
  · exact Nat.mod_lt _ (by positivity)
  · cases b1 <;> cases b2 <;> rfl
  · cases b1 <;> rfl

/-- C3: the sponsor digest is the 256-bit hash of the packed concatenation
(sender address, 20 bytes) || (call payload, raw) || (nonce, 32 bytes) —
no nested hash around the call payload, nonce last — and
`DemoPaymaster.validatePaymasterUserOp` recomputes exactly this digest;
its hashed pre-image differs from the principal digest's pre-image
(whenever the call payload is not itself 32 bytes long, the two packed
byte strings even have different lengths). -/
theorem sponsor_digest_consistent (H : Hash) (sender nonce : Nat) (callData : List Nat)
    (op : UserOperation) (hs : op.sender = sender) (hc : op.callData = callData)
    (hn : op.nonce = nonce) (hlen : (H callData).length = 32)
    (hcd : callData.length ≠ 32) :
    buildPaymasterHash H sender callData nonce = H (sponsorPreimage sender callData nonce)
    ∧ demoPaymasterHash H op = buildPaymasterHash H sender callData nonce
    ∧ sponsorPreimage sender callData nonce ≠ principalPreimage H sender nonce callData := by
  subst hs hc hn
  refine ⟨rfl, rfl, ?_⟩
  intro he
  have hl := congrArg List.length he
  simp [sponsorPreimage, principalPreimage, bytesBE_length, hlen] at hl
  omega

theorem sponsor_digest_consistent_witness :
    (⟨1, 2, [], [3], 0, 0, 0, 0, 0, [], []⟩ : UserOperation).sender = 1
    ∧ (⟨1, 2, [], [3], 0, 0, 0, 0, 0, [], []⟩ : UserOperation).callData = [3]
    ∧ (⟨1, 2, [], [3], 0, 0, 0, 0, 0, [], []⟩ : UserOperation).nonce = 2
    ∧ (constHash32 [3]).length = 32
    ∧ ([3] : List Nat).length ≠ 32
    ∧ (buildPaymasterHash constHash32 1 [3] 2 = constHash32 (sponsorPreimage 1 [3] 2)
       ∧ demoPaymasterHash constHash32 ⟨1, 2, [], [3], 0, 0, 0, 0, 0, [], []⟩
           = buildPaymasterHash constHash32 1 [3] 2
       ∧ sponsorPreimage 1 [3] 2 ≠ principalPreimage constHash32 1 2 [3]) :=
  ⟨rfl, rfl, rfl, constHash32_length [3], by decide,
   sponsor_digest_consistent constHash32 1 2 [3] ⟨1, 2, [], [3], 0, 0, 0, 0, 0, [], []⟩
     rfl rfl rfl (constHash32_length [3]) (by decide)⟩

/-- C4: the hash actually signed is keccak256("\x19Ethereum Signed
Message:\n32" || digest) — the EIP-191 personal-message wrapping with the
literal decimal length 32 — never the raw digest, and both on-chain
recovery routines (`DemoAccount.recover` and `DemoPaymaster._recover`)
apply the identical wrapping before `ecrecover`. -/
theorem eip191_wrapping_consistent (H : Hash) (digest : List Nat)
    (hd : digest.length = 32) :
    signMessageRawDigest H digest = demoAccountEthHash H digest
    ∧ signMessageRawDigest H digest = demoPaymasterEthHash H digest
    ∧ signMessageRawDigest H digest = H (ethSignedHeader ++ digest)
    ∧ ethSignedHeader = asciiBytes "\x19Ethereum Signed Message:\n" ++ asciiBytes "32"
    ∧ ethSignedHeader ++ digest ≠ digest := by
  refine ⟨rfl, rfl, rfl, by decide, ?_⟩
  intro he
  have hl := congrArg List.length he
  have h28 : ethSignedHeader.length = 28 := by decide
  simp [h28, hd] at hl

theorem eip191_wrapping_consistent_witness :
    (List.replicate 32 0 : List Nat).length = 32
    ∧ (signMessageRawDigest constHash32 (List.replicate 32 0)
         = demoAccountEthHash constHash32 (List.replicate 32 0)
       ∧ signMessageRawDigest constHash32 (List.replicate 32 0)
           = demoPaymasterEthHash constHash32 (List.replicate 32 0)
       ∧ signMessageRawDigest constHash32 (List.replicate 32 0)
           = constHash32 (ethSignedHeader ++ List.replicate 32 0)
       ∧ ethSignedHeader = asciiBytes "\x19Ethereum Signed Message:\n" ++ asciiBytes "32"
       ∧ ethSignedHeader ++ List.replicate 32 0 ≠ List.replicate 32 0) :=
  ⟨by simp,
   eip191_wrapping_consistent constHash32 (List.replicate 32 0) (by simp)⟩

/-- C5: the init payload of the built operation is non-empty exactly when
the existence check reports false, and empty exactly when it reports true;
when non-empty it is the factory address followed by the encoded
`createAccount` call, and that call payload determines the identity salt
inputs (uuidString, backendSalt), the entry point, and the intended initial
owner (shown by decoding them back from the fixed ABI byte offsets). -/
theorem initCode_empty_iff_deployed (H : Hash) (code : Option String) (factory : Nat)
    (uuidString backendSalt : List Nat) (entryPoint initialOwner : Nat)
    (hH : ∀ x, (H x).length = 32)
    (hsalt : backendSalt.length = 32)
    (hep : entryPoint < 2 ^ 160) (howner : initialOwner < 2 ^ 160)
    (hlen : uuidString.length < 256 ^ 32) :
    (buildInitCode H (smartAccountExists code) factory uuidString backendSalt entryPoint
        initialOwner ≠ []
      ↔ smartAccountExists code = false)
    ∧ (buildInitCode H (smartAccountExists code) factory uuidString backendSalt entryPoint
        initialOwner = []
      ↔ smartAccountExists code = true)
    ∧ (smartAccountExists code = false →
        buildInitCode H (smartAccountExists code) factory uuidString backendSalt entryPoint
          initialOwner
        = bytesBE 20 factory
            ++ encodeCreateAccountCall H uuidString backendSalt entryPoint initialOwner)
    ∧ decodeCreateAccountCall (encodeCreateAccountCall H uuidString backendSalt entryPoint
        initialOwner)
      = (uuidString, backendSalt, entryPoint, initialOwner) := by
  have hsel : (createAccountSelector H).length = 4 := by
    simp [createAccountSelector, List.length_take, hH]
  have hep' : entryPoint < 256 ^ 32 := lt_of_lt_of_le hep (by norm_num)
  have howner' : initialOwner < 256 ^ 32 := lt_of_lt_of_le howner (by norm_num)
  refine ⟨?_, ?_, ?_, ?_⟩
  · cases hex : smartAccountExists code
    · simpa [buildInitCode] using bytesBE20_append_ne_nil factory _
    · simp [buildInitCode]
  · cases hex : smartAccountExists code
    · simpa [buildInitCode] using bytesBE20_append_ne_nil factory _
    · simp [buildInitCode]
  · intro hfalse
    rw [hfalse]
    simp [buildInitCode]
  · simp only [decodeCreateAccountCall, encodeCreateAccountCall, List.append_assoc]
    rw [List.drop_left' hsel]
    rw [List.drop_left' (bytesBE_length 32 128)]
    rw [List.take_left' hsalt, List.drop_left' hsalt]
    rw [List.take_left' (bytesBE_length 32 entryPoint),
        List.drop_left' (bytesBE_length 32 entryPoint)]
    rw [List.take_left' (bytesBE_length 32 initialOwner),
        List.drop_left' (bytesBE_length 32 initialOwner)]
    rw [List.take_left' (bytesBE_length 32 uuidString.length),
        List.drop_left' (bytesBE_length 32 uuidString.length)]
    rw [bytesToNat_bytesBE_of_lt hep', bytesToNat_bytesBE_of_lt howner',
        bytesToNat_bytesBE_of_lt hlen]
    rw [padRight32, List.take_left]

theorem initCode_empty_iff_deployed_witness :
    (∀ x, (constHash32 x).length = 32)
    ∧ (List.replicate 32 1 : List Nat).length = 32
    ∧ (5 : Nat) < 2 ^ 160
    ∧ (7 : Nat) < 2 ^ 160
    ∧ ([97] : List Nat).length < 256 ^ 32
    ∧ ((buildInitCode constHash32 (smartAccountExists (some "0x")) 9 [97]
          (List.replicate 32 1) 5 7 ≠ []
        ↔ smartAccountExists (some "0x") = false)
       ∧ (buildInitCode constHash32 (smartAccountExists (some "0x")) 9 [97]
            (List.replicate 32 1) 5 7 = []
          ↔ smartAccountExists (some "0x") = true)
       ∧ (smartAccountExists (some "0x") = false →
           buildInitCode constHash32 (smartAccountExists (some "0x")) 9 [97]
             (List.replicate 32 1) 5 7
           = bytesBE 20 9
               ++ encodeCreateAccountCall constHash32 [97] (List.replicate 32 1) 5 7)
       ∧ decodeCreateAccountCall
           (encodeCreateAccountCall constHash32 [97] (List.replicate 32 1) 5 7)
         = ([97], List.replicate 32 1, 5, 7)) :=
  ⟨constHash32_length, by simp, by norm_num, by norm_num, by norm_num,
   initCode_empty_iff_deployed constHash32 (some "0x") 9 [97] (List.replicate 32 1) 5 7
     constHash32_length (by simp) (by norm_num) (by norm_num) (by norm_num)⟩

/-- C6: the sponsor payload is either empty or exactly 20 + 65 = 85 bytes —
the sponsor's 20-byte address immediately followed by the 65-byte signature,
no separator or length field (the validator's slice `pnd[20:85]` recovers
exactly the signature) — and the validator's length gate accepts a payload
iff its length is exactly 85. -/
theorem paymasterAndData_layout (paymasterAddress : Nat) (pmSig : Option (List Nat))
    (hsig : ∀ s, pmSig = some s → s.length = 65) :
    (paymasterAndDataOf pmSig paymasterAddress = []
      ∨ (paymasterAndDataOf pmSig paymasterAddress).length = 85)
    ∧ (∀ s, pmSig = some s →
        paymasterAndDataOf pmSig paymasterAddress = bytesBE 20 paymasterAddress ++ s
        ∧ paymasterSignatureSlice (paymasterAndDataOf pmSig paymasterAddress) = s
        ∧ paymasterAndDataLengthOk (paymasterAndDataOf pmSig paymasterAddress) = true)
    ∧ (∀ pnd : List Nat, paymasterAndDataLengthOk pnd = true ↔ pnd.length = 85) := by
  refine ⟨?_, ?_, ?_⟩
  · cases hp : pmSig with
    | none => exact Or.inl rfl
    | some s =>
        right
        have hs := hsig s hp
        simp [paymasterAndDataOf, buildPaymasterAndData, bytesBE_length, hs]
  · intro s hp
    have hs := hsig s hp
    refine ⟨by simp [paymasterAndDataOf, hp, buildPaymasterAndData], ?_, ?_⟩
    · rw [hp]
      show ((bytesBE 20 paymasterAddress ++ s).drop 20).take 65 = s
      rw [List.drop_left' (bytesBE_length 20 paymasterAddress), ← hs, List.take_length]
    · simp [paymasterAndDataOf, hp, buildPaymasterAndData, paymasterAndDataLengthOk,
            bytesBE_length, hs]
  · intro pnd
    simp [paymasterAndDataLengthOk]

theorem paymasterAndData_layout_witness :
    (∀ s, (some (List.replicate 65 2) : Option (List Nat)) = some s → s.length = 65)
    ∧ ((paymasterAndDataOf (some (List.replicate 65 2)) 3 = []
        ∨ (paymasterAndDataOf (some (List.replicate 65 2)) 3).length = 85)
       ∧ (∀ s, (some (List.replicate 65 2) : Option (List Nat)) = some s →
           paymasterAndDataOf (some (List.replicate 65 2)) 3 = bytesBE 20 3 ++ s
           ∧ paymasterSignatureSlice (paymasterAndDataOf (some (List.replicate 65 2)) 3) = s
           ∧ paymasterAndDataLengthOk (paymasterAndDataOf (some (List.replicate 65 2)) 3)
               = true)
       ∧ (∀ pnd : List Nat, paymasterAndDataLengthOk pnd = true ↔ pnd.length = 85)) :=
  ⟨by rintro s ⟨rfl⟩; simp,
   paymasterAndData_layout 3 (some (List.replicate 65 2)) (by rintro s ⟨rfl⟩; simp)⟩

/-- C7, counterexample: a relay response whose `result` member is present
and is a string — the empty string — is nevertheless rejected by the
submitters (JS truthiness: `!sendRes.result` is true for `""`), refuting
"success if and only if the tracking handle is present and a string". -/
theorem bundler_response_empty_string_cex :
    JsValue.isString (JsValue.jstr "") = true
    ∧ (BundlerSendUoResponse.mk (some (JsValue.jstr "")) none).result
        = some (JsValue.jstr "")
    ∧ checkBundlerResponse (BundlerSendUoResponse.mk (some (JsValue.jstr "")) none)
        = Except.error "Bundler did not return a valid operation hash" := by
  refine ⟨rfl, rfl, ?_⟩
  simp [checkBundlerResponse, JsValue.isTruthy]

/-- C7, amended: the submitters treat a relay response as success iff its
`result` member is present, a string, and non-empty (JS truthiness); every
other response — missing result, non-string result, empty-string result,
or an error-object response (which carries no result) — raises
"Bundler did not return a valid operation hash" instead of being accepted. -/
theorem bundler_response_check_amended (res : BundlerSendUoResponse) :
    ((∃ v, checkBundlerResponse res = Except.ok v)
      ↔ (∃ s, res.result = some (JsValue.jstr s) ∧ s ≠ ""))
    ∧ ((∃ v, checkBundlerResponse res = Except.ok v)
         ∨ checkBundlerResponse res
             = Except.error "Bundler did not return a valid operation hash") := by
  constructor
  · constructor
    · rintro ⟨v, hv⟩
      unfold checkBundlerResponse at hv
      cases hres : res.result with
      | none => rw [hres] at hv; exact absurd hv (by simp)
      | some w =>
          rw [hres] at hv
          cases w with
          | jstr s =>
              refine ⟨s, rfl, ?_⟩
              intro hempty
              subst hempty
              simp [JsValue.isTruthy] at hv
          | jnum n => simp [JsValue.isString] at hv
          | jbool b => simp [JsValue.isString] at hv
          | jnull => simp [JsValue.isTruthy] at hv
          | jobj => simp [JsValue.isString] at hv
    · rintro ⟨s, hs, hne⟩
      exact ⟨JsValue.jstr s,
        by simp [checkBundlerResponse, hs, JsValue.isTruthy, JsValue.isString, hne]⟩
  · unfold checkBundlerResponse
    cases hres : res.result with
    | none => exact Or.inr rfl
    | some v =>
        by_cases h : (v.isTruthy && v.isString) = true
        · exact Or.inl ⟨v, by simp [h]⟩
        · right
          simp only [h]
          simp at h
          simp [h]

/-- C8: the receipt poller, run against a stream of relay responses with
`n` leading absent responses followed by a present receipt, performs
exactly `n + 1` queries, sleeps the fixed 1000 ms interval after each
absent response (`1000 * n` ms in total), and returns that first receipt —
for every `n`, so there is no built-in upper bound on retries. -/
theorem waitForReceipt_first_receipt (α : Type) (n : Nat) (r : α) (rest : List (Option α)) :
    waitForReceipt (List.replicate n none ++ some r :: rest) = some (r, n + 1, 1000 * n) := by
  induction n with
  | zero => rfl
  | succ k ih =>
      rw [List.replicate_succ, List.cons_append]
      show (match waitForReceipt (List.replicate k none ++ some r :: rest) with
            | some (receipt, queries, slept) => some (receipt, queries + 1, slept + 1000)
            | none => none) = _
      rw [ih]
      simp
      ring

/-- C9, counterexample: the poller run against 20 consecutive absent
responses is still pending — it has consumed every observed response and
will query again; nothing in its inputs (bundler URL, operation hash,
response stream) can terminate the loop before a receipt arrives, so there
is no caller-supplied cancellation input. -/
theorem waitForReceipt_no_cancellation_cex :
    waitForReceipt (List.replicate 20 (none : Option Nat)) = none := by
  decide

/-- C9, amended: `waitForReceipt` takes only the bundler URL and the
operation hash; it has no cancellation input and no internal timeout: on
every finite stream of absent responses, of any length, it is still
pending and will query again — only a returned receipt terminates the
loop, and any deadline or stop signal must be imposed outside it. -/
theorem waitForReceipt_no_cancellation (α : Type) (k : Nat) :
    waitForReceipt (List.replicate k (none : Option α)) = none := by
  induction k with
  | zero => rfl
  | succ m ih =>
      rw [List.replicate_succ]
      show (match waitForReceipt (List.replicate m (none : Option α)) with
            | some (receipt, queries, slept) => some (receipt, queries + 1, slept + 1000)
            | none => none) = _
      rw [ih]

theorem hexCharVal_hexDigitChar {d : Nat} (hd : d < 16) :
    hexCharVal (hexDigitChar d) = some d := by
  interval_cases d <;> rfl

theorem parseHexDigitsAux_map (L : List Nat) (acc : Nat) (h : ∀ d ∈ L, d < 16) :
    parseHexDigitsAux (L.map hexDigitChar) acc
      = some (L.foldl (fun a d => 16 * a + d) acc) := by
  induction L generalizing acc with
  | nil => rfl
  | cons d ds ih =>
      rw [List.map_cons, parseHexDigitsAux, hexCharVal_hexDigitChar (h d (by simp))]
      show parseHexDigitsAux (List.map hexDigitChar ds) (16 * acc + d)
        = some (List.foldl (fun a d => 16 * a + d) acc (d :: ds))
      rw [ih (16 * acc + d) (fun e he => h e (by simp [he]))]
      rfl

theorem foldl_reverse_ofDigits (L : List Nat) (acc : Nat) :
    L.reverse.foldl (fun a d => 16 * a + d) acc
      = acc * 16 ^ L.length + Nat.ofDigits 16 L := by
  induction L generalizing acc with
  | nil => simp [Nat.ofDigits]
  | cons d ds ih =>
      rw [List.reverse_cons, List.foldl_append, ih]
      simp only [List.foldl_cons, List.foldl_nil, Nat.ofDigits_cons, List.length_cons,
        pow_succ]
      ring

theorem natToHexDigits_lt_16 (n : Nat) : ∀ d ∈ natToHexDigits n, d < 16 := by
  intro d hd
  rw [natToHexDigits] at hd
  by_cases hn : n = 0
  · simp [hn] at hd
    omega
  · rw [if_neg hn, List.mem_reverse] at hd
    exact Nat.digits_lt_base (by norm_num) hd

theorem natToHexDigits_ne_nil (n : Nat) : natToHexDigits n ≠ [] := by
  rw [natToHexDigits]
  by_cases hn : n = 0
  · simp [hn]
  · rw [if_neg hn]
    simp [Nat.digits_ne_nil_iff_ne_zero.mpr hn]

theorem foldl_natToHexDigits (n : Nat) :
    (natToHexDigits n).foldl (fun a d => 16 * a + d) 0 = n := by
  rw [natToHexDigits]
  by_cases hn : n = 0
  · simp [hn]
  · rw [if_neg hn, foldl_reverse_ofDigits]
    simp [Nat.ofDigits_digits]

theorem toHex_data (n : Nat) :
    (toHex n).data = '0' :: 'x' :: (natToHexDigits n).map hexDigitChar := by
  show ("0x" ++ String.mk ((natToHexDigits n).map hexDigitChar)).data = _
  rw [String.data_append]
  rfl

theorem parseBigIntHex_toHex (n : Nat) : parseBigIntHex (toHex n) = some n := by
  rw [parseBigIntHex, toHex_data]
  have hne : ((natToHexDigits n).map hexDigitChar).isEmpty = false := by
    rw [List.isEmpty_eq_false_iff_exists_mem]
    rcases List.exists_mem_of_ne_nil _ (natToHexDigits_ne_nil n) with ⟨d, hd⟩
    exact ⟨hexDigitChar d, List.mem_map_of_mem _ hd⟩
  show (if ((natToHexDigits n).map hexDigitChar).isEmpty = true then none
        else parseHexDigitsAux ((natToHexDigits n).map hexDigitChar) 0) = some n
  rw [hne]
  rw [if_neg (by simp)]
  rw [parseHexDigitsAux_map _ 0 (natToHexDigits_lt_16 n), foldl_natToHexDigits]

/-- C10: integer-to-hex serialization round-trips — parsing
`toHex n` with the `BigInt` hex grammar returns `n` for every `n`; the
digit string is minimal (no leading zero digit unless the value is zero);
and converting an operation built by `buildUserOperation` back with
`toEntryPointUserOp` recovers exactly the numeric nonce, gas-limit, and
fee values it was built from. -/
theorem toHex_roundtrip (n : Nat) (sender callData : String) (mf mpf : Nat) :
    parseBigIntHex (toHex n) = some n
    ∧ (n ≠ 0 → ∀ d, (natToHexDigits n).head? = some d → d ≠ 0)
    ∧ natToHexDigits 0 = [0]
    ∧ toEntryPointUserOp (buildUserOperation sender n callData mf mpf)
        = some { sender := sender, nonce := n, initCode := "0x", callData := callData,
                 callGasLimit := 250000, verificationGasLimit := 250000,
                 preVerificationGas := 50000, maxFeePerGas := mf,
                 maxPriorityFeePerGas := mpf, paymasterAndData := "0x",
                 signature := "0x" } := by
  refine ⟨parseBigIntHex_toHex n, ?_, rfl, ?_⟩
  · intro hn d hd
    rw [natToHexDigits, if_neg hn, List.head?_reverse] at hd
    have hne : Nat.digits 16 n ≠ [] := Nat.digits_ne_nil_iff_ne_zero.mpr hn
    rw [List.getLast?_eq_getLast _ hne] at hd
    have := Nat.getLast_digit_ne_zero 16 hn
    simpa [← Option.some_inj.mp hd] using this
  · simp [toEntryPointUserOp, buildUserOperation, parseBigIntHex_toHex]

theorem toHex_roundtrip_witness :
    parseBigIntHex (toHex 5) = some 5
    ∧ ((5 : Nat) ≠ 0 → ∀ d, (natToHexDigits 5).head? = some d → d ≠ 0)
    ∧ natToHexDigits 0 = [0]
    ∧ toEntryPointUserOp (buildUserOperation "0xs" 5 "0xcd" 7 9)
        = some { sender := "0xs", nonce := 5, initCode := "0x", callData := "0xcd",
                 callGasLimit := 250000, verificationGasLimit := 250000,
                 preVerificationGas := 50000, maxFeePerGas := 7,
                 maxPriorityFeePerGas := 9, paymasterAndData := "0x",
                 signature := "0x" } :=
  toHex_roundtrip 5 "0xs" "0xcd" 7 9
